import Mathlib

/-!
Verification development for `include/pybind11/numpy_array.h`: the STL-style
wrappers `np_array` (1D) and `np_array_2d` around a numpy `array_t` handle,
together with the `random_access_iterator_base` mixin and `np_array_iterator`.

The foreign storage is modelled as an explicit heap of buffers addressed by
natural numbers (0 plays the role of the null pointer, allocation hands out
fresh positive addresses).  A container holds its handle (`m_wrappee`, the
address wrapped by the `array_t` object, `none` for a null handle), the cached
raw pointer `p_buffer` and the cached size(s), exactly as the C++ class does.
Buffer cells are `Option` values: `none` marks an uninitialized cell.
-/

set_option autoImplicit false

namespace NumpyArray

variable {α : Type} {ε : Type}

/-- Modelled from the spec: a buffer held by the foreign numpy allocator
(`array_t` / `buffer_info` are external leaves, §6): shape plus flat
row-major data; freshly allocated cells are uninitialized (`none`). -/
structure Buf (α : Type) where
  shape : List Nat
  data : List (Option α)
deriving DecidableEq

/-- Modelled from the spec: the foreign heap of allocated buffers.  `next` is
the next fresh address; address 0 is never allocated and stands for the null
pointer. -/
structure Heap (α : Type) where
  next : Nat
  mem : List (Nat × Buf α)
deriving DecidableEq

/-- The empty heap: no buffers, first fresh address is 1. -/
def Heap.empty : Heap α := ⟨1, []⟩

/-- The buffer stored at address `a` (a dangling address reads as an empty
buffer; the modelled code never reads dangling addresses). -/
def Heap.bufAt (h : Heap α) (a : Nat) : Buf α :=
  match h.mem.lookup a with
  | some b => b
  | none => ⟨[], []⟩

/-- Modelled from the spec: constructing an `array_t` from a `buffer_info`
with a null pointer allocates fresh uninitialized storage of the given shape
(§6).  Returns the new heap and the address of the new buffer. -/
def Heap.alloc (h : Heap α) (shape : List Nat) : Heap α × Nat :=
  (⟨h.next + 1, (h.next, ⟨shape, List.replicate shape.prod none⟩) :: h.mem⟩, h.next)

/-- `std::fill(first, first + n, v)` on the front of a cell list. -/
def fillList : List (Option α) → Nat → α → List (Option α)
  | l, 0, _ => l
  | [], _ + 1, _ => []
  | _ :: t, n + 1, v => some v :: fillList t n v

/-- `std::copy(first, last, dst)` writing a value list onto the front of a
cell list. -/
def copyList : List (Option α) → List α → List (Option α)
  | l, [] => l
  | [], _ :: _ => []
  | _ :: t, v :: vs => some v :: copyList t vs

/-- Apply `g` to the buffer stored under key `a` (an in-place store update). -/
def mapBuf (a : Nat) (g : Buf α → Buf α) (m : List (Nat × Buf α)) : List (Nat × Buf α) :=
  m.map fun p => if p.1 = a then (p.1, g p.2) else p

/-- Fill the first `n` cells of the buffer at address `a` with `v`. -/
def Heap.fillRange (h : Heap α) (a n : Nat) (v : α) : Heap α :=
  ⟨h.next, mapBuf a (fun b => ⟨b.shape, fillList b.data n v⟩) h.mem⟩

/-- Copy the value list `l` onto the front of the buffer at address `a`. -/
def Heap.copyRange (h : Heap α) (a : Nat) (l : List α) : Heap α :=
  ⟨h.next, mapBuf a (fun b => ⟨b.shape, copyList b.data l⟩) h.mem⟩

/-- Write `v` into cell `i` of the buffer at address `a`. -/
def Heap.write (h : Heap α) (a i : Nat) (v : α) : Heap α :=
  ⟨h.next, mapBuf a (fun b => ⟨b.shape, b.data.set i (some v)⟩) h.mem⟩

/-- The 1D container `np_array<T>`: handle `m_wrappee`, cached raw pointer
`p_buffer` (0 = nullptr) and cached size `m_size`, as in the source. -/
structure np_array where
  m_wrappee : Option Nat
  p_buffer : Nat
  m_size : Nat
deriving DecidableEq

namespace np_array

/-- `np_array::update_buffer_info`: `request()` the handle and cache the raw
pointer and the element count.  (`request()` on a null handle is an error in
the real code; the modelled code paths never do it, so the `none` branch is
inert.) -/
def update_buffer_info (h : Heap α) (arr : np_array) : np_array :=
  match arr.m_wrappee with
  | some a => ⟨some a, a, (h.bufAt a).data.length⟩
  | none => arr

/-- The default constructor `np_array()`: null handle, null cached pointer,
size 0. -/
def make_default : np_array := ⟨none, 0, 0⟩

/-- `np_array(size)`: allocate a fresh 1D buffer of `n` elements through the
handle, then refresh the cache. -/
def make_sized (h : Heap α) (n : Nat) : Heap α × np_array :=
  let p := Heap.alloc h [n]
  (p.1, update_buffer_info p.1 ⟨some p.2, 0, 0⟩)

/-- `np_array(size, val)`: as `np_array(size)`, then
`std::fill(get_buffer(), get_buffer() + size, val)`. -/
def make_filled (h : Heap α) (n : Nat) (v : α) : Heap α × np_array :=
  let p := make_sized h n
  (Heap.fillRange p.1 p.2.p_buffer n v, p.2)

/-- `np_array(first, last)`: delegate to `np_array(distance(first, last))`,
then `std::copy(first, last, get_buffer())`. -/
def make_range (h : Heap α) (l : List α) : Heap α × np_array :=
  let p := make_sized h l.length
  (Heap.copyRange p.1 p.2.p_buffer l, p.2)

/-- The copy constructor: copy the handle (sharing storage), refresh the
cache.  The heap is unchanged (only reference counts move). -/
def copy_ctor (h : Heap α) (rhs : np_array) : np_array :=
  update_buffer_info h ⟨rhs.m_wrappee, 0, 0⟩

/-- Copy assignment (non-self case): assign the handle, refresh the cache. -/
def copy_assign (h : Heap α) (dst rhs : np_array) : np_array :=
  update_buffer_info h ⟨rhs.m_wrappee, dst.p_buffer, dst.m_size⟩

/-- The move constructor: steal the handle (the source handle becomes null),
refresh the destination cache.  The source's cached `p_buffer` and `m_size`
are not touched by the source code. -/
def move_ctor (h : Heap α) (rhs : np_array) : np_array × np_array :=
  (update_buffer_info h ⟨rhs.m_wrappee, 0, 0⟩, ⟨none, rhs.p_buffer, rhs.m_size⟩)

/-- Move assignment (non-self case): destination first, then the moved-from
source. -/
def move_assign (h : Heap α) (dst rhs : np_array) : np_array × np_array :=
  (update_buffer_info h ⟨rhs.m_wrappee, dst.p_buffer, dst.m_size⟩,
   ⟨none, rhs.p_buffer, rhs.m_size⟩)

/-- `np_array::size()`. -/
def size (arr : np_array) : Nat := arr.m_size

/-- `np_array::empty()`: `size() == 0`. -/
def empty (arr : np_array) : Bool := arr.size == 0

/-- `np_array::get_buffer()`: the cached raw pointer. -/
def get_buffer (arr : np_array) : Nat := arr.p_buffer

/-- `np_array::resize_impl(size)`: reallocate and refresh only when the
requested size differs from the cached size. -/
def resize_impl (h : Heap α) (arr : np_array) (n : Nat) : Heap α × np_array :=
  if n = arr.m_size then (h, arr)
  else
    let p := Heap.alloc h [n]
    (p.1, update_buffer_info p.1 ⟨some p.2, arr.p_buffer, arr.m_size⟩)

/-- `np_array::resize(size)`. -/
def resize (h : Heap α) (arr : np_array) (n : Nat) : Heap α × np_array :=
  resize_impl h arr n

/-- `np_array::resize(size, value)`: `resize_impl(size)` then
`std::fill(get_buffer(), get_buffer() + size, value)`. -/
def resize_fill (h : Heap α) (arr : np_array) (n : Nat) (v : α) : Heap α × np_array :=
  let p := resize_impl h arr n
  (Heap.fillRange p.1 p.2.p_buffer n v, p.2)

/-- Reading `operator[](i)` through the cached pointer. -/
def read (h : Heap α) (arr : np_array) (i : Nat) : Option α :=
  ((h.bufAt arr.get_buffer).data).getD i none

/-- Writing through `operator[](i)` (assignment to the returned reference). -/
def write (h : Heap α) (arr : np_array) (i : Nat) (v : α) : Heap α :=
  Heap.write h arr.get_buffer i v

/-- Well-formedness of a reachable bound state: the cached pointer is the
handle's address and the cached size is the buffer's element count. -/
def wf (h : Heap α) (arr : np_array) : Prop :=
  arr.m_wrappee = some arr.p_buffer ∧ (h.bufAt arr.p_buffer).data.length = arr.m_size

instance (h : Heap α) (arr : np_array) : Decidable (wf h arr) := by
  unfold wf; infer_instance

end np_array

/-- The 2D container `np_array_2d<T>`: handle, cached raw pointer and cached
shape `m_nb_row × m_nb_col`, as in the source. -/
structure np_array_2d where
  m_wrappee : Option Nat
  p_buffer : Nat
  m_nb_row : Nat
  m_nb_col : Nat
deriving DecidableEq

namespace np_array_2d

/-- `np_array_2d::update_buffer_info`: cache the raw pointer and the two
shape entries. -/
def update_buffer_info (h : Heap α) (m : np_array_2d) : np_array_2d :=
  match m.m_wrappee with
  | some a => ⟨some a, a, (h.bufAt a).shape.getD 0 0, (h.bufAt a).shape.getD 1 0⟩
  | none => m

/-- The default constructor `np_array_2d()`. -/
def make_default : np_array_2d := ⟨none, 0, 0, 0⟩

/-- `np_array_2d(xsize, ysize)`: allocate a fresh row-major `r × c` buffer,
refresh the cache. -/
def make_sized (h : Heap α) (r c : Nat) : Heap α × np_array_2d :=
  let p := Heap.alloc h [r, c]
  (p.1, update_buffer_info p.1 ⟨some p.2, 0, 0, 0⟩)

/-- `np_array_2d(xsize, ysize, val)`: as above, then
`std::fill(get_buffer(), get_buffer() + m_nb_row * m_nb_col, val)`. -/
def make_filled (h : Heap α) (r c : Nat) (v : α) : Heap α × np_array_2d :=
  let p := make_sized h r c
  (Heap.fillRange p.1 p.2.p_buffer (p.2.m_nb_row * p.2.m_nb_col) v, p.2)

/-- `np_array_2d::nb_row()`. -/
def nb_row (m : np_array_2d) : Nat := m.m_nb_row

/-- `np_array_2d::nb_col()`. -/
def nb_col (m : np_array_2d) : Nat := m.m_nb_col

/-- `np_array_2d::empty()`: `nb_row() * nb_col() == 0`. -/
def empty (m : np_array_2d) : Bool := m.nb_row * m.nb_col == 0

/-- `np_array_2d::get_buffer()`. -/
def get_buffer (m : np_array_2d) : Nat := m.p_buffer

/-- `np_array_2d::get_address(i, j)`: the flat row-major offset
`i * m_nb_col + j`. -/
def get_address (m : np_array_2d) (i j : Nat) : Nat := i * m.m_nb_col + j

/-- `np_array_2d::resize_impl(nb_row, nb_col)`: reallocate and refresh only
when either requested dimension differs from the cached one. -/
def resize_impl (h : Heap α) (m : np_array_2d) (r c : Nat) : Heap α × np_array_2d :=
  if r ≠ m.m_nb_row ∨ c ≠ m.m_nb_col then
    let p := Heap.alloc h [r, c]
    (p.1, update_buffer_info p.1 ⟨some p.2, m.p_buffer, m.m_nb_row, m.m_nb_col⟩)
  else (h, m)

/-- `np_array_2d::resize(nb_row, nb_col)`. -/
def resize (h : Heap α) (m : np_array_2d) (r c : Nat) : Heap α × np_array_2d :=
  resize_impl h m r c

/-- `np_array_2d::resize(nb_row, nb_col, value)`: `resize_impl` then
`std::fill(get_buffer(), get_buffer() + m_nb_row * m_nb_col, value)`
on the refreshed dimensions. -/
def resize_fill (h : Heap α) (m : np_array_2d) (r c : Nat) (v : α) : Heap α × np_array_2d :=
  let p := resize_impl h m r c
  (Heap.fillRange p.1 p.2.p_buffer (p.2.m_nb_row * p.2.m_nb_col) v, p.2)

/-- Reading the mutable `operator()(i, j)`:
`get_buffer()[get_address(i, j)]`.  (The const overload as written calls the
undeclared member `get_adress`, a typo for `get_address`, and therefore does
not compile when instantiated; this definition models the intended, mutable
behavior.) -/
def read (h : Heap α) (m : np_array_2d) (i j : Nat) : Option α :=
  ((h.bufAt m.get_buffer).data).getD (m.get_address i j) none

/-- Writing through the mutable `operator()(i, j)`. -/
def write (h : Heap α) (m : np_array_2d) (i j : Nat) (v : α) : Heap α :=
  Heap.write h m.get_buffer (m.get_address i j) v

/-- Well-formedness of a reachable bound 2D state. -/
def wf (h : Heap α) (m : np_array_2d) : Prop :=
  m.m_wrappee = some m.p_buffer ∧
    (h.bufAt m.p_buffer).data.length = m.m_nb_row * m.m_nb_col

instance (h : Heap α) (m : np_array_2d) : Decidable (wf h m) := by
  unfold wf; infer_instance

end np_array_2d

/-- A raw element pointer: the address of the owning buffer plus an element
offset (pointer arithmetic never leaves a buffer in defined code). -/
structure RawPtr where
  base : Nat
  off : Int
deriving DecidableEq

/-- `np_array_iterator`: wraps one raw pointer `p_ptr`. -/
structure np_array_iterator where
  p_ptr : RawPtr
deriving DecidableEq

namespace np_array_iterator

/-- Primitive `operator++` (pre-increment): advance the pointer by one
element. -/
def inc (it : np_array_iterator) : np_array_iterator :=
  ⟨⟨it.p_ptr.base, it.p_ptr.off + 1⟩⟩

/-- Primitive `operator--` (pre-decrement). -/
def dec (it : np_array_iterator) : np_array_iterator :=
  ⟨⟨it.p_ptr.base, it.p_ptr.off - 1⟩⟩

/-- Primitive `operator+=`. -/
def add_assign (it : np_array_iterator) (n : Int) : np_array_iterator :=
  ⟨⟨it.p_ptr.base, it.p_ptr.off + n⟩⟩

/-- Primitive `operator-=`. -/
def sub_assign (it : np_array_iterator) (n : Int) : np_array_iterator :=
  ⟨⟨it.p_ptr.base, it.p_ptr.off - n⟩⟩

/-- Primitive `operator==`: raw pointer equality. -/
def eqb (a b : np_array_iterator) : Bool := decide (a.p_ptr = b.p_ptr)

/-- Primitive `operator<`: address order (meaningful within one buffer). -/
def ltb (a b : np_array_iterator) : Bool := decide (a.p_ptr.off < b.p_ptr.off)

/-- Primitive `operator*`: read the pointed-to cell. -/
def deref (h : Heap α) (it : np_array_iterator) : Option α :=
  if it.p_ptr.off < 0 then none
  else ((h.bufAt it.p_ptr.base).data).getD it.p_ptr.off.toNat none

/-- Mixin `operator+(it, n)` from `random_access_iterator_base`: copy, then
`+=`. -/
def add (it : np_array_iterator) (n : Int) : np_array_iterator := add_assign it n

/-- Mixin `operator+(n, it)`: defined as `it + n`. -/
def add_left (n : Int) (it : np_array_iterator) : np_array_iterator := add it n

/-- Mixin `operator-(it, n)`: copy, then `-=`. -/
def sub (it : np_array_iterator) (n : Int) : np_array_iterator := sub_assign it n

/-- Mixin `operator[](n)`: `*(it + n)`. -/
def subscript (h : Heap α) (it : np_array_iterator) (n : Int) : Option α :=
  deref h (add it n)

/-- Mixin `operator!=`: `!(a == b)`. -/
def neb (a b : np_array_iterator) : Bool := !(eqb a b)

/-- Mixin `operator<=`: `!(b < a)`. -/
def leb (a b : np_array_iterator) : Bool := !(ltb b a)

/-- Mixin `operator>=`: `!(a < b)`. -/
def geb (a b : np_array_iterator) : Bool := !(ltb a b)

/-- Mixin `operator>`: `b < a`. -/
def gtb (a b : np_array_iterator) : Bool := ltb b a

/-- `k` successive pre-increments. -/
def incN : Nat → np_array_iterator → np_array_iterator
  | 0, it => it
  | k + 1, it => incN k (inc it)

/-- `k` successive pre-decrements. -/
def decN : Nat → np_array_iterator → np_array_iterator
  | 0, it => it
  | k + 1, it => decN k (dec it)

end np_array_iterator

namespace np_array

/-- `np_array::begin()`: `iterator(get_buffer())`. -/
def begin (arr : np_array) : np_array_iterator := ⟨⟨arr.get_buffer, 0⟩⟩

/-- `np_array::end()`: `iterator(get_buffer() + size())`. -/
def end_ (arr : np_array) : np_array_iterator := ⟨⟨arr.get_buffer, (arr.size : Int)⟩⟩

end np_array

/-- The iterators visited by the loop `for (it = first; it != last; ++it)`,
with enough fuel to reach `last`. -/
def collect_iters : Nat → np_array_iterator → np_array_iterator → List np_array_iterator
  | 0, _, _ => []
  | fuel + 1, it, stop =>
    if np_array_iterator.eqb it stop then []
    else it :: collect_iters fuel (np_array_iterator.inc it) stop

/-- The element pointers visited by a `std::reverse_iterator` loop from
`reverse_iterator(last)` to `reverse_iterator(first)`: each step visits
`*(base - 1)` and decrements the base iterator. -/
def collect_rev_iters : Nat → np_array_iterator → np_array_iterator → List np_array_iterator
  | 0, _, _ => []
  | fuel + 1, it, stop =>
    if np_array_iterator.eqb it stop then []
    else np_array_iterator.dec it ::
      collect_rev_iters fuel (np_array_iterator.dec it) stop

/-- Forward iteration over the container: `begin()` to `end()`. -/
def np_array.forward_iters (arr : np_array) : List np_array_iterator :=
  collect_iters (arr.m_size + 1) arr.begin arr.end_

/-- Reverse iteration over the container: `rbegin()` to `rend()`. -/
def np_array.reverse_iters (arr : np_array) : List np_array_iterator :=
  collect_rev_iters (arr.m_size + 1) arr.end_ arr.begin

/-- Modelled from the spec: allocation by the foreign handle may fail (§7,
AllocationFailure); `fail = some e` makes the allocator raise `e`, `none`
makes it succeed.  The error type is abstract. -/
def Heap.allocE (fail : Option ε) (h : Heap α) (shape : List Nat) :
    Except ε (Heap α × Nat) :=
  match fail with
  | some e => Except.error e
  | none => Except.ok (Heap.alloc h shape)

/-- `np_array::resize_impl` with a fallible allocator.  The C++ sequencing is
`wrappee_type(buffer_info(...))` (may throw) before any member mutation, so a
raised error escapes carrying the untouched prior state, which the `error`
payload records. -/
def np_array.resize_implE (fail : Option ε) (h : Heap α) (arr : np_array) (n : Nat) :
    Except (ε × Heap α × np_array) (Heap α × np_array) :=
  if n = arr.m_size then Except.ok (h, arr)
  else
    match Heap.allocE fail h [n] with
    | Except.error e => Except.error (e, h, arr)
    | Except.ok p =>
        Except.ok (p.1, np_array.update_buffer_info p.1 ⟨some p.2, arr.p_buffer, arr.m_size⟩)

/-- `np_array(size)` with a fallible allocator: a throwing member initializer
aborts construction, leaving only the untouched heap. -/
def np_array.make_sizedE (fail : Option ε) (h : Heap α) (n : Nat) :
    Except (ε × Heap α) (Heap α × np_array) :=
  match Heap.allocE fail h [n] with
  | Except.error e => Except.error (e, h)
  | Except.ok p => Except.ok (p.1, np_array.update_buffer_info p.1 ⟨some p.2, 0, 0⟩)

/-- `np_array_2d::resize_impl` with a fallible allocator. -/
def np_array_2d.resize_implE (fail : Option ε) (h : Heap α) (m : np_array_2d) (r c : Nat) :
    Except (ε × Heap α × np_array_2d) (Heap α × np_array_2d) :=
  if r ≠ m.m_nb_row ∨ c ≠ m.m_nb_col then
    match Heap.allocE fail h [r, c] with
    | Except.error e => Except.error (e, h, m)
    | Except.ok p =>
        Except.ok (p.1,
          np_array_2d.update_buffer_info p.1 ⟨some p.2, m.p_buffer, m.m_nb_row, m.m_nb_col⟩)
  else Except.ok (h, m)

/-- `np_array_2d(xsize, ysize)` with a fallible allocator. -/
def np_array_2d.make_sizedE (fail : Option ε) (h : Heap α) (r c : Nat) :
    Except (ε × Heap α) (Heap α × np_array_2d) :=
  match Heap.allocE fail h [r, c] with
  | Except.error e => Except.error (e, h)
  | Except.ok p => Except.ok (p.1, np_array_2d.update_buffer_info p.1 ⟨some p.2, 0, 0, 0⟩)

/-! ### Helper lemmas -/

theorem lookup_mapBuf (l : List (Nat × Buf α)) (a : Nat) (g : Buf α → Buf α) :
    (mapBuf a g l).lookup a = (l.lookup a).map g := by
  unfold mapBuf
  induction l with
  | nil => rfl
  | cons p t ih =>
    rcases p with ⟨k, b⟩
    simp only [List.map_cons]
    by_cases hk : k = a
    · subst hk
      rw [if_pos rfl]
      simp [List.lookup_cons, ih]
    · rw [if_neg hk]
      have hak : (a == k) = false := beq_false_of_ne fun hh => hk hh.symm
      simp [List.lookup_cons, hak, ih]

theorem Heap.bufAt_fillRange_self (h : Heap α) (a n : Nat) (v : α) :
    (h.fillRange a n v).bufAt a =
      ⟨(h.bufAt a).shape, fillList (h.bufAt a).data n v⟩ := by
  unfold Heap.bufAt Heap.fillRange
  dsimp only
  rw [lookup_mapBuf]
  cases hl : h.mem.lookup a with
  | none =>
    simp only [Option.map_none]
    cases n <;> rfl
  | some b => simp

theorem Heap.bufAt_copyRange_self (h : Heap α) (a : Nat) (l : List α) :
    (h.copyRange a l).bufAt a =
      ⟨(h.bufAt a).shape, copyList (h.bufAt a).data l⟩ := by
  unfold Heap.bufAt Heap.copyRange
  dsimp only
  rw [lookup_mapBuf]
  cases hl : h.mem.lookup a with
  | none =>
    simp only [Option.map_none]
    cases l <;> rfl
  | some b => simp

theorem Heap.bufAt_write_self (h : Heap α) (a i : Nat) (v : α) :
    (h.write a i v).bufAt a =
      ⟨(h.bufAt a).shape, (h.bufAt a).data.set i (some v)⟩ := by
  unfold Heap.bufAt Heap.write
  dsimp only
  rw [lookup_mapBuf]
  cases hl : h.mem.lookup a with
  | none => simp
  | some b => simp

theorem Heap.bufAt_alloc_self (h : Heap α) (s : List Nat) :
    (h.alloc s).1.bufAt (h.alloc s).2 = ⟨s, List.replicate s.prod none⟩ := by
  simp [Heap.alloc, Heap.bufAt, List.lookup]

theorem fillList_zero (l : List (Option α)) (v : α) : fillList l 0 v = l := by
  cases l <;> rfl

theorem fillList_length (l : List (Option α)) (n : Nat) (v : α) :
    (fillList l n v).length = l.length := by
  induction l generalizing n with
  | nil => cases n <;> rfl
  | cons x t ih =>
    cases n with
    | zero => rfl
    | succ m => simp [fillList, ih]

theorem fillList_getD_lt (l : List (Option α)) (n i : Nat) (v : α)
    (hi : i < n) (hl : i < l.length) :
    (fillList l n v).getD i none = some v := by
  induction l generalizing n i with
  | nil => simp at hl
  | cons x t ih =>
    cases n with
    | zero => omega
    | succ m =>
      cases i with
      | zero => rfl
      | succ j =>
        simp only [fillList, List.getD_cons_succ]
        exact ih m j (by omega) (by simpa using hl)

theorem copyList_length (l : List (Option α)) (s : List α) :
    (copyList l s).length = l.length := by
  induction l generalizing s with
  | nil => cases s <;> rfl
  | cons x t ih =>
    cases s with
    | nil => rfl
    | cons v vs => simp [copyList, ih]

theorem copyList_getD (l : List (Option α)) (s : List α) (i : Nat)
    (hi : i < s.length) (hl : i < l.length) :
    (copyList l s).getD i none = s[i]? := by
  induction l generalizing s i with
  | nil => simp at hl
  | cons x t ih =>
    cases s with
    | nil => simp at hi
    | cons v vs =>
      cases i with
      | zero => simp [copyList]
      | succ j =>
        simp only [copyList, List.getD_cons_succ]
        rw [ih vs j (by simpa using hi) (by simpa using hl)]
        simp

theorem setList_getD_self (l : List (Option α)) (i : Nat) (v : α)
    (hl : i < l.length) :
    (l.set i (some v)).getD i none = some v := by
  induction l generalizing i with
  | nil => simp at hl
  | cons x t ih =>
    cases i with
    | zero => rfl
    | succ j =>
      simp only [List.set_cons_succ, List.getD_cons_succ]
      exact ih j (by simpa using hl)

theorem Heap.fillRange_zero (h : Heap α) (a : Nat) (v : α) :
    h.fillRange a 0 v = h := by
  rcases h with ⟨nx, mem⟩
  unfold Heap.fillRange mapBuf
  dsimp only
  congr 1
  have hfun : ∀ p : Nat × Buf α,
      (if p.1 = a then (p.1, (⟨p.2.shape, fillList p.2.data 0 v⟩ : Buf α)) else p) = p := by
    intro p
    have hb : (⟨p.2.shape, fillList p.2.data 0 v⟩ : Buf α) = p.2 := by
      rw [fillList_zero]
    rw [hb]
    by_cases hp : p.1 = a
    · rw [if_pos hp]
    · rw [if_neg hp]
  calc (mem.map fun p =>
      if p.1 = a then (p.1, (⟨p.2.shape, fillList p.2.data 0 v⟩ : Buf α)) else p)
      = mem.map id := List.map_congr_left (fun p _ => hfun p)
    _ = mem := List.map_id mem

theorem addr_lt {i j r c : Nat} (hi : i < r) (hj : j < c) :
    i * c + j < r * c := by
  calc i * c + j < i * c + c := by omega
    _ = (i + 1) * c := by ring
    _ ≤ r * c := Nat.mul_le_mul_right c (by omega)

/-- The ascending pointer list `⟨b,i⟩, ⟨b,i+1⟩, …` of length `m`. -/
def iter_list (b : Nat) : Int → Nat → List np_array_iterator
  | _, 0 => []
  | i, m + 1 => ⟨⟨b, i⟩⟩ :: iter_list b (i + 1) m

theorem iter_list_snoc (b : Nat) (i : Int) (m : Nat) :
    iter_list b i (m + 1) = iter_list b i m ++ [⟨⟨b, i + m⟩⟩] := by
  induction m generalizing i with
  | zero => simp [iter_list]
  | succ k ih =>
    have h1 : iter_list b i (k + 1 + 1) = ⟨⟨b, i⟩⟩ :: iter_list b (i + 1) (k + 1) := rfl
    rw [h1, ih (i + 1)]
    have h2 : (i + 1) + (k : Int) = i + ((k : Nat) + 1 : Nat) := by push_cast; ring
    rw [h2]
    rfl

theorem iter_list_eq_range_map (b : Nat) (i : Int) (m : Nat) :
    iter_list b i m = (List.range m).map (fun j => ⟨⟨b, i + j⟩⟩) := by
  induction m generalizing i with
  | zero => rfl
  | succ k ih =>
    rw [List.range_succ_eq_map]
    have h1 : iter_list b i (k + 1) = ⟨⟨b, i⟩⟩ :: iter_list b (i + 1) k := rfl
    rw [h1, ih (i + 1)]
    simp only [List.map_cons, List.map_map, Nat.cast_zero, add_zero]
    congr 1
    apply List.map_congr_left
    intro j _
    have hc : i + 1 + (j : Int) = i + ((j : Nat) + 1 : Nat) := by push_cast; ring
    simp [Function.comp, hc]

theorem collect_iters_spec (b : Nat) (m : Nat) :
    ∀ (fuel : Nat) (i : Int), m < fuel →
      collect_iters fuel ⟨⟨b, i⟩⟩ ⟨⟨b, i + m⟩⟩ = iter_list b i m := by
  induction m with
  | zero =>
    intro fuel i hf
    cases fuel with
    | zero => omega
    | succ f =>
      have he : np_array_iterator.eqb ⟨⟨b, i⟩⟩ ⟨⟨b, i⟩⟩ = true := by
        simp [np_array_iterator.eqb]
      simp [collect_iters, he, iter_list]
  | succ k ih =>
    intro fuel i hf
    cases fuel with
    | zero => omega
    | succ f =>
      have he : np_array_iterator.eqb ⟨⟨b, i⟩⟩ ⟨⟨b, i + ((k : Nat) + 1 : Nat)⟩⟩ = false := by
        simp only [np_array_iterator.eqb, decide_eq_false_iff_not]
        intro hcontra
        have : i = i + ((k : Nat) + 1 : Nat) := congrArg RawPtr.off hcontra
        push_cast at this
        omega
      have hstep : (⟨⟨b, i + 1⟩⟩ : np_array_iterator) = np_array_iterator.inc ⟨⟨b, i⟩⟩ := rfl
      have hoff : i + ((k : Nat) + 1 : Nat) = (i + 1) + (k : Nat) := by push_cast; ring
      simp only [collect_iters, he, if_neg, Bool.false_eq_true, ite_false]
      have h1 : iter_list b i (k + 1) = ⟨⟨b, i⟩⟩ :: iter_list b (i + 1) k := rfl
      rw [h1]
      congr 1
      rw [← hstep, hoff]
      exact ih f (i + 1) (by omega)

theorem collect_rev_iters_spec (b : Nat) (m : Nat) :
    ∀ (fuel : Nat) (i : Int), m < fuel →
      collect_rev_iters fuel ⟨⟨b, i + m⟩⟩ ⟨⟨b, i⟩⟩ = (iter_list b i m).reverse := by
  induction m with
  | zero =>
    intro fuel i hf
    cases fuel with
    | zero => omega
    | succ f =>
      have he : np_array_iterator.eqb ⟨⟨b, i⟩⟩ ⟨⟨b, i⟩⟩ = true := by
        simp [np_array_iterator.eqb]
      simp [collect_rev_iters, he, iter_list]
  | succ k ih =>
    intro fuel i hf
    cases fuel with
    | zero => omega
    | succ f =>
      have he : np_array_iterator.eqb ⟨⟨b, i + ((k : Nat) + 1 : Nat)⟩⟩ ⟨⟨b, i⟩⟩ = false := by
        simp only [np_array_iterator.eqb, decide_eq_false_iff_not]
        intro hcontra
        have : i + ((k : Nat) + 1 : Nat) = i := congrArg RawPtr.off hcontra
        push_cast at this
        omega
      have hdec : np_array_iterator.dec ⟨⟨b, i + ((k : Nat) + 1 : Nat)⟩⟩ =
          ⟨⟨b, i + (k : Nat)⟩⟩ := by
        simp only [np_array_iterator.dec]
        congr 1
        congr 1
        push_cast
        ring
      simp only [collect_rev_iters, he, Bool.false_eq_true, ite_false, hdec]
      rw [iter_list_snoc, List.reverse_append]
      simp only [List.reverse_cons, List.reverse_nil, List.nil_append, List.singleton_append]
      congr 1
      exact ih f i (by omega)

theorem forward_iters_eq (arr : np_array) :
    arr.forward_iters =
      (List.range arr.m_size).map (fun j => ⟨⟨arr.p_buffer, (j : Int)⟩⟩) := by
  unfold np_array.forward_iters np_array.begin np_array.end_ np_array.get_buffer np_array.size
  have h0 : ((arr.m_size : Int)) = (0 : Int) + (arr.m_size : Nat) := by omega
  rw [h0, collect_iters_spec arr.p_buffer arr.m_size (arr.m_size + 1) 0 (by omega),
    iter_list_eq_range_map]
  apply List.map_congr_left
  intro j _
  simp

theorem reverse_iters_eq (arr : np_array) :
    arr.reverse_iters =
      ((List.range arr.m_size).map (fun j => ⟨⟨arr.p_buffer, (j : Int)⟩⟩)).reverse := by
  unfold np_array.reverse_iters np_array.begin np_array.end_ np_array.get_buffer np_array.size
  have h0 : ((arr.m_size : Int)) = (0 : Int) + (arr.m_size : Nat) := by omega
  rw [h0, collect_rev_iters_spec arr.p_buffer arr.m_size (arr.m_size + 1) 0 (by omega),
    iter_list_eq_range_map]
  congr 1
  apply List.map_congr_left
  intro j _
  simp

theorem add_eq_incN (it : np_array_iterator) (k : Nat) :
    it.add (k : Int) = np_array_iterator.incN k it := by
  induction k generalizing it with
  | zero => simp [np_array_iterator.add, np_array_iterator.add_assign, np_array_iterator.incN]
  | succ m ih =>
    have h1 : np_array_iterator.incN (m + 1) it =
        np_array_iterator.incN m (np_array_iterator.inc it) := rfl
    rw [h1, ← ih]
    simp only [np_array_iterator.add, np_array_iterator.add_assign, np_array_iterator.inc]
    congr 1
    congr 1
    omega

theorem sub_eq_decN (it : np_array_iterator) (k : Nat) :
    it.sub (k : Int) = np_array_iterator.decN k it := by
  induction k generalizing it with
  | zero => simp [np_array_iterator.sub, np_array_iterator.sub_assign, np_array_iterator.decN]
  | succ m ih =>
    have h1 : np_array_iterator.decN (m + 1) it =
        np_array_iterator.decN m (np_array_iterator.dec it) := rfl
    rw [h1, ← ih]
    simp only [np_array_iterator.sub, np_array_iterator.sub_assign, np_array_iterator.dec]
    congr 1
    congr 1
    omega

theorem Heap.bufAt_alloc_next (h : Heap α) (s : List Nat) :
    (h.alloc s).1.bufAt h.next = ⟨s, List.replicate s.prod none⟩ :=
  Heap.bufAt_alloc_self h s

theorem np_array.make_sized_eq (h : Heap α) (n : Nat) :
    np_array.make_sized h n = ((Heap.alloc h [n]).1, ⟨some h.next, h.next, n⟩) := by
  unfold np_array.make_sized np_array.update_buffer_info
  dsimp only
  rw [Heap.bufAt_alloc_self]
  simp [Heap.alloc]

theorem np_array_2d.make_sized_eq_2d (h : Heap α) (r c : Nat) :
    np_array_2d.make_sized h r c = ((Heap.alloc h [r, c]).1, ⟨some h.next, h.next, r, c⟩) := by
  unfold np_array_2d.make_sized np_array_2d.update_buffer_info
  dsimp only
  rw [Heap.bufAt_alloc_self]
  simp [Heap.alloc]

theorem np_array.resize_impl_of_ne (h : Heap α) (arr : np_array) (n : Nat)
    (hne : n ≠ arr.m_size) :
    np_array.resize_impl h arr n = ((Heap.alloc h [n]).1, ⟨some h.next, h.next, n⟩) := by
  unfold np_array.resize_impl np_array.update_buffer_info
  rw [if_neg hne]
  dsimp only
  rw [Heap.bufAt_alloc_self]
  simp [Heap.alloc]

theorem np_array.resize_impl_of_eq (h : Heap α) (arr : np_array) (n : Nat)
    (heq : n = arr.m_size) :
    np_array.resize_impl h arr n = (h, arr) := by
  unfold np_array.resize_impl
  rw [if_pos heq]

theorem np_array_2d.resize_impl_of_ne_2d (h : Heap α) (m : np_array_2d) (r c : Nat)
    (hne : r ≠ m.m_nb_row ∨ c ≠ m.m_nb_col) :
    np_array_2d.resize_impl h m r c = ((Heap.alloc h [r, c]).1, ⟨some h.next, h.next, r, c⟩) := by
  unfold np_array_2d.resize_impl np_array_2d.update_buffer_info
  rw [if_pos hne]
  dsimp only
  rw [Heap.bufAt_alloc_self]
  simp [Heap.alloc]

theorem np_array_2d.resize_impl_of_eq_2d (h : Heap α) (m : np_array_2d) (r c : Nat)
    (hr : r = m.m_nb_row) (hc : c = m.m_nb_col) :
    np_array_2d.resize_impl h m r c = (h, m) := by
  unfold np_array_2d.resize_impl
  rw [if_neg]
  push_neg
  exact ⟨hr, hc⟩

/-! ### Claim theorems -/

/-- Concrete witness state: `np_array<long long>(2)` built on the empty heap
(`Int` models the 64-bit element type). -/
def wstate1 : Heap Int × np_array := np_array.make_sized Heap.empty 2

/-- Concrete witness state: `np_array_2d<long long>(2, 3)` built on the empty
heap. -/
def wstate2 : Heap Int × np_array_2d := np_array_2d.make_sized Heap.empty 2 3

theorem np_array.resize_fill_size (h : Heap α) (arr : np_array) (n : Nat) (v : α) :
    (np_array.resize_fill h arr n v).2.m_size = n := by
  unfold np_array.resize_fill
  dsimp only
  by_cases hn : n = arr.m_size
  · rw [np_array.resize_impl_of_eq h arr n hn]
    exact hn.symm
  · rw [np_array.resize_impl_of_ne h arr n hn]

theorem np_array.resize_fill_read (h : Heap α) (arr : np_array) (n i : Nat) (v : α)
    (hlen : (h.bufAt arr.p_buffer).data.length = arr.m_size) (hi : i < n) :
    np_array.read (np_array.resize_fill h arr n v).1 (np_array.resize_fill h arr n v).2 i
      = some v := by
  unfold np_array.resize_fill np_array.read np_array.get_buffer
  dsimp only
  by_cases hn : n = arr.m_size
  · rw [np_array.resize_impl_of_eq h arr n hn]
    dsimp only
    rw [Heap.bufAt_fillRange_self]
    dsimp only
    exact fillList_getD_lt _ _ _ _ hi (by rw [hlen, ← hn]; exact hi)
  · rw [np_array.resize_impl_of_ne h arr n hn]
    dsimp only
    rw [Heap.bufAt_fillRange_self, Heap.bufAt_alloc_next]
    dsimp only
    exact fillList_getD_lt _ _ _ _ hi (by simpa using hi)

theorem np_array_2d.resize_fill_shape (h : Heap α) (m : np_array_2d) (r c : Nat) (v : α) :
    (np_array_2d.resize_fill h m r c v).2.m_nb_row = r ∧
    (np_array_2d.resize_fill h m r c v).2.m_nb_col = c := by
  unfold np_array_2d.resize_fill
  dsimp only
  by_cases hcond : r ≠ m.m_nb_row ∨ c ≠ m.m_nb_col
  · rw [np_array_2d.resize_impl_of_ne_2d h m r c hcond]
    exact ⟨rfl, rfl⟩
  · push_neg at hcond
    rw [np_array_2d.resize_impl_of_eq_2d h m r c hcond.1 hcond.2]
    exact ⟨hcond.1.symm, hcond.2.symm⟩

theorem np_array_2d.resize_fill_read_2d (h : Heap α) (m : np_array_2d) (r c i j : Nat) (v : α)
    (hlen : (h.bufAt m.p_buffer).data.length = m.m_nb_row * m.m_nb_col)
    (hi : i < r) (hj : j < c) :
    np_array_2d.read (np_array_2d.resize_fill h m r c v).1
      (np_array_2d.resize_fill h m r c v).2 i j = some v := by
  unfold np_array_2d.resize_fill np_array_2d.read np_array_2d.get_buffer
    np_array_2d.get_address
  dsimp only
  by_cases hcond : r ≠ m.m_nb_row ∨ c ≠ m.m_nb_col
  · rw [np_array_2d.resize_impl_of_ne_2d h m r c hcond]
    dsimp only
    rw [Heap.bufAt_fillRange_self, Heap.bufAt_alloc_next]
    dsimp only
    refine fillList_getD_lt _ _ _ _ (addr_lt hi hj) ?_
    have hp : ([r, c] : List Nat).prod = r * c := by simp [List.prod_cons]
    simpa [hp] using addr_lt hi hj
  · push_neg at hcond
    obtain ⟨hr, hc⟩ := hcond
    rw [np_array_2d.resize_impl_of_eq_2d h m r c hr hc]
    dsimp only
    rw [Heap.bufAt_fillRange_self]
    dsimp only
    subst hr
    subst hc
    exact fillList_getD_lt _ _ _ _ (addr_lt hi hj) (by rw [hlen]; exact addr_lt hi hj)

/-- C1: `Array1D::resize(n)` reallocates (fresh handle, fresh pointer, new
size, one new allocation) only when `n` differs from the current size, and is
a complete no-op — heap, pointer, size, contents — when `n` equals it; the
same conditional policy holds for `Array2D::resize(r, c)` on the pair of
dimensions. -/
theorem C1_resize_reallocates_only_on_change (h : Heap α) (arr : np_array) (n : Nat)
    (h2 : Heap α) (m : np_array_2d) (r c : Nat)
    (hf : arr.p_buffer < h.next) (hw : arr.m_wrappee = some arr.p_buffer)
    (hf2 : m.p_buffer < h2.next) (hw2 : m.m_wrappee = some m.p_buffer) :
    (n = arr.m_size → np_array.resize h arr n = (h, arr)) ∧
    (n ≠ arr.m_size →
      (np_array.resize h arr n).2.m_wrappee = some h.next ∧
      (np_array.resize h arr n).2.m_wrappee ≠ arr.m_wrappee ∧
      (np_array.resize h arr n).2.p_buffer = h.next ∧
      (np_array.resize h arr n).2.p_buffer ≠ arr.p_buffer ∧
      (np_array.resize h arr n).2.m_size = n ∧
      (np_array.resize h arr n).1.next = h.next + 1) ∧
    (r = m.m_nb_row ∧ c = m.m_nb_col → np_array_2d.resize h2 m r c = (h2, m)) ∧
    (¬(r = m.m_nb_row ∧ c = m.m_nb_col) →
      (np_array_2d.resize h2 m r c).2.m_wrappee = some h2.next ∧
      (np_array_2d.resize h2 m r c).2.m_wrappee ≠ m.m_wrappee ∧
      (np_array_2d.resize h2 m r c).2.p_buffer = h2.next ∧
      (np_array_2d.resize h2 m r c).2.p_buffer ≠ m.p_buffer ∧
      (np_array_2d.resize h2 m r c).2.m_nb_row = r ∧
      (np_array_2d.resize h2 m r c).2.m_nb_col = c ∧
      (np_array_2d.resize h2 m r c).1.next = h2.next + 1) := by
  refine ⟨?_, ?_, ?_, ?_⟩
  · intro hn
    exact np_array.resize_impl_of_eq h arr n hn
  · intro hn
    unfold np_array.resize
    rw [np_array.resize_impl_of_ne h arr n hn]
    refine ⟨rfl, ?_, rfl, by dsimp only; omega, rfl, rfl⟩
    rw [hw]
    dsimp only
    intro hcontra
    have : h.next = arr.p_buffer := by
      have := Option.some.inj hcontra
      exact this
    omega
  · intro hrc
    exact np_array_2d.resize_impl_of_eq_2d h2 m r c hrc.1 hrc.2
  · intro hrc
    have hcond : r ≠ m.m_nb_row ∨ c ≠ m.m_nb_col := by
      rcases not_and_or.mp hrc with hx | hx
      · exact Or.inl hx
      · exact Or.inr hx
    unfold np_array_2d.resize
    rw [np_array_2d.resize_impl_of_ne_2d h2 m r c hcond]
    refine ⟨rfl, ?_, rfl, by dsimp only; omega, rfl, rfl, rfl⟩
    rw [hw2]
    dsimp only
    intro hcontra
    have : h2.next = m.p_buffer := Option.some.inj hcontra
    omega

/-- C1 witness: resizing the concrete `np_array<long long>(2)` to 3 installs
a fresh pointer, and resizing the concrete `Array2D(2, 3)` to its own shape
is a no-op. -/
theorem C1_resize_reallocates_only_on_change_witness :
    (wstate1.2.p_buffer < wstate1.1.next ∧ wstate2.2.p_buffer < wstate2.1.next) ∧
    (np_array.resize wstate1.1 wstate1.2 3).2.p_buffer ≠ wstate1.2.p_buffer ∧
    np_array_2d.resize wstate2.1 wstate2.2 2 3 = (wstate2.1, wstate2.2) :=
  ⟨⟨by decide, by decide⟩,
   ((C1_resize_reallocates_only_on_change wstate1.1 wstate1.2 3 wstate2.1 wstate2.2 2 3
      (by decide) (by decide) (by decide) (by decide)).2.1 (by decide)).2.2.2.1,
   (C1_resize_reallocates_only_on_change wstate1.1 wstate1.2 3 wstate2.1 wstate2.2 2 3
      (by decide) (by decide) (by decide) (by decide)).2.2.1 (by decide)⟩

/-- C2: `resize(n, v)` resizes and then fills the entire resulting storage —
all `n` elements — with `v`, also when `n` equals the current size and no
reallocation happens; `Array2D::resize(r, c, v)` fills all `r * c`
elements. -/
theorem C2_resize_fill_fills_whole_buffer (h : Heap α) (arr : np_array) (n i : Nat) (v : α)
    (h2 : Heap α) (m : np_array_2d) (r c i2 j2 : Nat)
    (hwf : np_array.wf h arr) (hi : i < n)
    (hwf2 : np_array_2d.wf h2 m) (hi2 : i2 < r) (hj2 : j2 < c) :
    (np_array.resize_fill h arr n v).2.m_size = n ∧
    np_array.read (np_array.resize_fill h arr n v).1 (np_array.resize_fill h arr n v).2 i
      = some v ∧
    (np_array_2d.resize_fill h2 m r c v).2.m_nb_row = r ∧
    (np_array_2d.resize_fill h2 m r c v).2.m_nb_col = c ∧
    np_array_2d.read (np_array_2d.resize_fill h2 m r c v).1
      (np_array_2d.resize_fill h2 m r c v).2 i2 j2 = some v :=
  ⟨np_array.resize_fill_size h arr n v,
   np_array.resize_fill_read h arr n i v hwf.2 hi,
   (np_array_2d.resize_fill_shape h2 m r c v).1,
   (np_array_2d.resize_fill_shape h2 m r c v).2,
   np_array_2d.resize_fill_read_2d h2 m r c i2 j2 v hwf2.2 hi2 hj2⟩

/-- C2 witness: `resize(2, 9)` on the concrete size-2 array (no reallocation)
refills element 1, and `resize(2, 3, 9)` on the concrete `Array2D(2, 3)`
refills element (1, 2). -/
theorem C2_resize_fill_fills_whole_buffer_witness :
    (np_array.wf wstate1.1 wstate1.2 ∧ np_array_2d.wf wstate2.1 wstate2.2) ∧
    np_array.read (np_array.resize_fill wstate1.1 wstate1.2 2 9).1
      (np_array.resize_fill wstate1.1 wstate1.2 2 9).2 1 = some 9 ∧
    np_array_2d.read (np_array_2d.resize_fill wstate2.1 wstate2.2 2 3 9).1
      (np_array_2d.resize_fill wstate2.1 wstate2.2 2 3 9).2 1 2 = some 9 :=
  ⟨⟨by decide, by decide⟩,
   (C2_resize_fill_fills_whole_buffer wstate1.1 wstate1.2 2 1 9 wstate2.1 wstate2.2 2 3 1 2
      (by decide) (by decide) (by decide) (by decide) (by decide)).2.1,
   (C2_resize_fill_fills_whole_buffer wstate1.1 wstate1.2 2 1 9 wstate2.1 wstate2.2 2 3 1 2
      (by decide) (by decide) (by decide) (by decide) (by decide)).2.2.2.2⟩


/-- C8: for all `n ≥ 0`, `Array1D(n).size() == n` and
`Array1D(n).empty() == (n == 0)` — including `n = 0`, the one case where
`empty()` is true — and for every value `v`, `Array1D(n, v)` has
`size() == n` and, whenever `i < n`, element `i` equals `v`. -/
theorem C8_sized_and_fill_ctor (h : Heap α) (n i : Nat) (v : α) :
    (np_array.make_sized h n).2.size = n ∧
    (np_array.make_sized h n).2.empty = (n == 0) ∧
    (np_array.make_filled h n v).2.size = n ∧
    (i < n →
      np_array.read (np_array.make_filled h n v).1 (np_array.make_filled h n v).2 i
        = some v) := by
  have hs := np_array.make_sized_eq h n
  refine ⟨by rw [hs]; rfl, by rw [hs]; rfl, ?_, ?_⟩
  · unfold np_array.make_filled
    dsimp only
    rw [hs]
    rfl
  · intro hi
    unfold np_array.make_filled
    dsimp only
    rw [hs]
    unfold np_array.read np_array.get_buffer
    dsimp only
    rw [Heap.bufAt_fillRange_self, Heap.bufAt_alloc_next]
    dsimp only
    refine fillList_getD_lt _ _ _ _ hi ?_
    simpa using hi

/-- C8 witness: `Array1D(3, 7)` read at index 1 returns 7, and the
default-sized `Array1D(0)` reports `empty() == (0 == 0)`, i.e. true. -/
theorem C8_sized_and_fill_ctor_witness :
    (1 < 3) ∧
    np_array.read (np_array.make_filled (Heap.empty : Heap Int) 3 7).1
      (np_array.make_filled (Heap.empty : Heap Int) 3 7).2 1 = some 7 ∧
    (np_array.make_sized (Heap.empty : Heap Int) 0).2.empty = (0 == 0) :=
  ⟨by decide,
   (C8_sized_and_fill_ctor (Heap.empty : Heap Int) 3 1 7).2.2.2 (by decide),
   (C8_sized_and_fill_ctor (Heap.empty : Heap Int) 0 0 0).2.1⟩

/-- C9: `Array1D(S.begin(), S.end())` has size `len(S)` and is element-wise
equal to `S` in iteration order. -/
theorem C9_range_ctor (h : Heap α) (l : List α) (i : Nat) (hi : i < l.length) :
    (np_array.make_range h l).2.size = l.length ∧
    np_array.read (np_array.make_range h l).1 (np_array.make_range h l).2 i = l[i]? := by
  have hs := np_array.make_sized_eq h l.length
  constructor
  · unfold np_array.make_range
    dsimp only
    rw [hs]
    rfl
  · unfold np_array.make_range
    dsimp only
    rw [hs]
    unfold np_array.read np_array.get_buffer
    dsimp only
    rw [Heap.bufAt_copyRange_self, Heap.bufAt_alloc_next]
    dsimp only
    refine copyList_getD _ _ _ hi ?_
    simpa using hi

/-- C9 witness: `Array1D` built from the sequence `[4, 5, 6]` reads back
`5` at index 1 and has size 3. -/
theorem C9_range_ctor_witness :
    (1 < 3) ∧
    ((np_array.make_range (Heap.empty : Heap Int) [4, 5, 6]).2.size = 3 ∧
      np_array.read (np_array.make_range (Heap.empty : Heap Int) [4, 5, 6]).1
        (np_array.make_range (Heap.empty : Heap Int) [4, 5, 6]).2 1 = [(4 : Int), 5, 6][1]?) :=
  ⟨by decide, C9_range_ctor (Heap.empty : Heap Int) [4, 5, 6] 1 (by decide)⟩

/-- C10: a default-constructed `Array1D` has a null cached pointer and size
0, `begin() == end()`, forward and reverse iteration visit no elements, and
`resize(0)` and `resize(0, v)` perform no allocation and leave the same
storage-less state and heap. -/
theorem C10_default_state (h : Heap α) (v : α) :
    np_array.make_default.p_buffer = 0 ∧
    np_array.make_default.size = 0 ∧
    np_array.begin np_array.make_default = np_array.end_ np_array.make_default ∧
    np_array.forward_iters np_array.make_default = [] ∧
    np_array.reverse_iters np_array.make_default = [] ∧
    np_array.resize h np_array.make_default 0 = (h, np_array.make_default) ∧
    np_array.resize_fill h np_array.make_default 0 v = (h, np_array.make_default) := by
  refine ⟨rfl, rfl, by decide, by decide, by decide, ?_, ?_⟩
  · exact np_array.resize_impl_of_eq h np_array.make_default 0 rfl
  · unfold np_array.resize_fill
    dsimp only
    rw [np_array.resize_impl_of_eq h np_array.make_default 0 rfl]
    rw [Heap.fillRange_zero]

theorem np_array.copy_ctor_eq (h : Heap α) (arr : np_array)
    (hwf : np_array.wf h arr) :
    np_array.copy_ctor h arr = ⟨some arr.p_buffer, arr.p_buffer, arr.m_size⟩ := by
  unfold np_array.copy_ctor np_array.update_buffer_info
  rw [hwf.1]
  dsimp only
  rw [hwf.2]

theorem np_array.copy_assign_eq (h : Heap α) (dst arr : np_array)
    (hwf : np_array.wf h arr) :
    np_array.copy_assign h dst arr = ⟨some arr.p_buffer, arr.p_buffer, arr.m_size⟩ := by
  unfold np_array.copy_assign np_array.update_buffer_info
  rw [hwf.1]
  dsimp only
  rw [hwf.2]

/-- C5: copy construction and copy assignment alias the source's storage
rather than deep-copying: the copy's cached pointer and size equal the
source's, and a write through the copy at any valid index is observed
through the original at the same index. -/
theorem C5_copy_aliases_storage (h : Heap α) (arr dst : np_array) (i : Nat) (v : α)
    (hwf : np_array.wf h arr) (hi : i < arr.m_size) :
    (np_array.copy_ctor h arr).p_buffer = arr.p_buffer ∧
    (np_array.copy_ctor h arr).m_size = arr.m_size ∧
    np_array.copy_assign h dst arr = np_array.copy_ctor h arr ∧
    np_array.read (np_array.write h (np_array.copy_ctor h arr) i v) arr i = some v := by
  have hc := np_array.copy_ctor_eq h arr hwf
  refine ⟨by rw [hc], by rw [hc], by rw [np_array.copy_assign_eq h dst arr hwf, hc], ?_⟩
  rw [hc]
  unfold np_array.write np_array.read np_array.get_buffer
  dsimp only
  rw [Heap.bufAt_write_self]
  dsimp only
  exact setList_getD_self _ _ _ (by rw [hwf.2]; exact hi)

/-- C5 witness: writing 9 at index 1 through a copy of the concrete size-2
array is read back through the original. -/
theorem C5_copy_aliases_storage_witness :
    np_array.wf wstate1.1 wstate1.2 ∧ (1 < wstate1.2.m_size) ∧
    np_array.read (np_array.write wstate1.1 (np_array.copy_ctor wstate1.1 wstate1.2) 1 9)
      wstate1.2 1 = some 9 :=
  ⟨by decide, by decide,
   (C5_copy_aliases_storage wstate1.1 wstate1.2 np_array.make_default 1 9
      (by decide) (by decide)).2.2.2⟩

/-- C3 counterexample: move-constructing from the concrete `Array1D(2)`
leaves the source with `size() == 2` — not 0 as the claim states — and the
source's cached pointer still holds the transferred buffer's address. -/
theorem C3_counterexample_stale_source :
    (np_array.move_ctor wstate1.1 wstate1.2).2.m_size ≠ 0 ∧
    (np_array.move_ctor wstate1.1 wstate1.2).2.p_buffer = wstate1.2.p_buffer := by
  decide

/-- C3 (amended): after move-construction or move-assignment the destination
holds the source's former storage with a refreshed cache, and the source's
handle is emptied (nulled, so the handle no longer owns the buffer) — but
the source's cached pointer and cached size are left stale and unchanged, so
`s.size()` returns its former size rather than 0. -/
theorem C3_move_transfers_handle_amended (h : Heap α) (arr dst : np_array)
    (hw : arr.m_wrappee = some arr.p_buffer) :
    (np_array.move_ctor h arr).1 =
      ⟨some arr.p_buffer, arr.p_buffer, (h.bufAt arr.p_buffer).data.length⟩ ∧
    (np_array.move_ctor h arr).2 = ⟨none, arr.p_buffer, arr.m_size⟩ ∧
    (np_array.move_assign h dst arr).1 =
      ⟨some arr.p_buffer, arr.p_buffer, (h.bufAt arr.p_buffer).data.length⟩ ∧
    (np_array.move_assign h dst arr).2 = ⟨none, arr.p_buffer, arr.m_size⟩ := by
  unfold np_array.move_ctor np_array.move_assign np_array.update_buffer_info
  rw [hw]
  exact ⟨rfl, rfl, rfl, rfl⟩

/-- C3 witness: moving from the concrete size-2 array transfers the buffer
address to the destination while the source keeps its stale cache. -/
theorem C3_move_transfers_handle_amended_witness :
    wstate1.2.m_wrappee = some wstate1.2.p_buffer ∧
    (np_array.move_ctor wstate1.1 wstate1.2).2 = ⟨none, wstate1.2.p_buffer, wstate1.2.m_size⟩ :=
  ⟨by decide,
   (C3_move_transfers_handle_amended wstate1.1 wstate1.2 np_array.make_default
      (by decide)).2.1⟩

/-- C6: the iterator algebra derived by `random_access_iterator_base` from
the primitives of `np_array_iterator`: `it + k`, `k + it` and `k` successive
pre-increments agree; `it - k` equals `k` pre-decrements; `it[k]` is
`*(it + k)`; the derived comparisons are the stated negations/swaps of `==`
and `<`; forward iteration over an `Array1D` visits exactly `size()`
elements in ascending address order and reverse iteration visits the same
addresses in descending order. -/
theorem C6_iterator_algebra (hh : Heap α) (it a b : np_array_iterator) (k : Nat)
    (arr : np_array) :
    it.add (k : Int) = np_array_iterator.incN k it ∧
    np_array_iterator.add_left (k : Int) it = it.add (k : Int) ∧
    it.sub (k : Int) = np_array_iterator.decN k it ∧
    np_array_iterator.subscript hh it (k : Int) = np_array_iterator.deref hh (it.add (k : Int)) ∧
    (np_array_iterator.neb a b = true ↔ ¬ np_array_iterator.eqb a b = true) ∧
    (np_array_iterator.leb a b = true ↔ ¬ np_array_iterator.ltb b a = true) ∧
    (np_array_iterator.geb a b = true ↔ ¬ np_array_iterator.ltb a b = true) ∧
    np_array_iterator.gtb a b = np_array_iterator.ltb b a ∧
    arr.forward_iters = (List.range arr.m_size).map (fun j => ⟨⟨arr.p_buffer, (j : Int)⟩⟩) ∧
    arr.reverse_iters = arr.forward_iters.reverse ∧
    arr.forward_iters.length = arr.m_size := by
  refine ⟨add_eq_incN it k, rfl, sub_eq_decN it k, rfl, ?_, ?_, ?_, rfl, forward_iters_eq arr,
    ?_, ?_⟩
  · simp [np_array_iterator.neb]
  · simp [np_array_iterator.leb]
  · simp [np_array_iterator.geb]
  · rw [reverse_iters_eq, forward_iters_eq]
  · rw [forward_iters_eq]
    simp

/-- C7: allocation failures of the foreign handle propagate unmodified and
the operations are atomic: a failed `resize` leaves handle, cached pointer
and size exactly as before the call (and attempts no allocation in the
equal-size case), a failed fresh construction leaves just the prior heap,
and in the absence of failure the fallible operations agree with the plain
ones. -/
theorem C7_alloc_failure_is_atomic (e : ε) (h : Heap α) (arr : np_array) (n : Nat)
    (h2 : Heap α) (m : np_array_2d) (r c : Nat) :
    np_array.resize_implE (some e) h arr n =
      (if n = arr.m_size then Except.ok (h, arr) else Except.error (e, h, arr)) ∧
    np_array.resize_implE (none : Option ε) h arr n = Except.ok (np_array.resize h arr n) ∧
    np_array.make_sizedE (some e) h n = Except.error (e, h) ∧
    np_array.make_sizedE (none : Option ε) h n = Except.ok (np_array.make_sized h n) ∧
    np_array_2d.resize_implE (some e) h2 m r c =
      (if r ≠ m.m_nb_row ∨ c ≠ m.m_nb_col then Except.error (e, h2, m)
        else Except.ok (h2, m)) ∧
    np_array_2d.resize_implE (none : Option ε) h2 m r c =
      Except.ok (np_array_2d.resize h2 m r c) ∧
    np_array_2d.make_sizedE (some e) h2 r c = Except.error (e, h2) ∧
    np_array_2d.make_sizedE (none : Option ε) h2 r c =
      Except.ok (np_array_2d.make_sized h2 r c) := by
  refine ⟨?_, ?_, rfl, rfl, ?_, ?_, rfl, rfl⟩
  · unfold np_array.resize_implE Heap.allocE
    by_cases hn : n = arr.m_size
    · simp only [if_pos hn]
    · simp only [if_neg hn]
  · unfold np_array.resize_implE Heap.allocE np_array.resize np_array.resize_impl
    by_cases hn : n = arr.m_size
    · simp only [if_pos hn]
    · simp only [if_neg hn]
  · unfold np_array_2d.resize_implE Heap.allocE
    by_cases hc : r ≠ m.m_nb_row ∨ c ≠ m.m_nb_col
    · simp only [if_pos hc]
    · simp only [if_neg hc]
  · unfold np_array_2d.resize_implE Heap.allocE np_array_2d.resize np_array_2d.resize_impl
    by_cases hc : r ≠ m.m_nb_row ∨ c ≠ m.m_nb_col
    · simp only [if_pos hc]
    · simp only [if_neg hc]

/-- The heap obtained from the concrete `Array2D(2, 3)` by writing the
values `0..5` row-major through the mutable `operator()`. -/
def c4heap : Heap Int :=
  np_array_2d.write
    (np_array_2d.write
      (np_array_2d.write
        (np_array_2d.write
          (np_array_2d.write
            (np_array_2d.write wstate2.1 wstate2.2 0 0 0)
            wstate2.2 0 1 1)
          wstate2.2 0 2 2)
        wstate2.2 1 0 3)
      wstate2.2 1 1 4)
    wstate2.2 1 2 5

/-- C4 (intended behavior at the failing input): through the mutable
`operator()(i, j)`, which computes the flat address `get_address(i, j) =
i * m_nb_col + j`, writing `0..5` row-major into `Array2D(2, 3)` reads back
`i * 3 + j` at every `(i, j)`.  The const overload cannot witness this: as
written it calls the undeclared member `get_adress` (a typo for
`get_address`) and fails to compile when instantiated. -/
theorem C4_row_major_addressing_example :
    wstate2.2.get_address 1 2 = 1 * 3 + 2 ∧
    np_array_2d.read c4heap wstate2.2 0 0 = some 0 ∧
    np_array_2d.read c4heap wstate2.2 0 1 = some 1 ∧
    np_array_2d.read c4heap wstate2.2 0 2 = some 2 ∧
    np_array_2d.read c4heap wstate2.2 1 0 = some 3 ∧
    np_array_2d.read c4heap wstate2.2 1 1 = some 4 ∧
    np_array_2d.read c4heap wstate2.2 1 2 = some 5 := by
  decide

end NumpyArray
